import Mathlib

/-!
Verification development for the BOAMP data-extractor service (src/main.py).

The service fetches procurement notices for a target publication date from a
paginated remote catalog, normalizes them into tabular rows, filters rows by
administrative department code, tracks each extraction as a background job in
an in-memory map, and serves the resulting datasets as spreadsheets.

Shallow embedding conventions:
* Python strings are Lean `String`s; character-level helpers work on `List Char`
  (`String.data`) and mirror CPython semantics (`str.strip`, `str.replace`,
  `str.split(',')`, lexicographic `<` on code points).
* Dynamically-typed JSON-ish values are the inductive `PyVal`; the cells of a
  pandas dataframe after normalization are the flat inductive `Cell` (the
  `clist` constructor covers the raw list shape that `filter_by_departments`
  handles when called on unnormalized data).
* The network is a parameter `f : Nat -> Except Unit (List Rec)` mapping a page
  offset to either a transport/HTTP failure (`.error`, the
  `requests.exceptions.RequestException` branch) or a page of records.
* The `while` loop of `get_all_records_for_date` is driven by structural fuel;
  the real loop performs at most 101 iterations because the offset advances by
  100 each iteration and the loop breaks once the offset exceeds 10000, so fuel
  102 is unreachable (see `fetch_loop_fuel_irrelevant`).
* The `ValueError` that the filter's `pd.isna` truth test raises on an empty
  or multi-element list cell (src/main.py line 129, outside the `try`) is
  modelled directly: `filter_by_departments` returns `Except String Df` and
  `process_extraction` routes its error into the `except Exception` branch.
  Other faults Python could raise from parts outside this embedding (pandas
  internals, etc.) are modelled by an injected `fault : Option String` argument
  to `process_extraction`; `some e` selects the same `except Exception` branch.
-/

/-- Double-quote character `"` (written via its code point). -/
def quoteChar : Char := Char.ofNat 34

/-- Apostrophe character (written via its code point). -/
def aposChar : Char := Char.ofNat 39

/-- Python `c in "[]"`: is the character a square bracket? -/
def isBracket (c : Char) : Bool := c == '[' || c == ']'

/-- Python whitespace test used by `str.strip()` (ASCII whitespace). -/
def isPyWS (c : Char) : Bool :=
  c == ' ' || c == '\t' || c == '\n' || c == '\r' || c == Char.ofNat 11 || c == Char.ofNat 12

/-- Strip characters satisfying `p` from both ends of a character list,
Python `str.strip(chars)`. -/
def pyStrip (p : Char → Bool) (l : List Char) : List Char :=
  ((l.dropWhile p).reverse.dropWhile p).reverse

/-- Python `s.strip('[]')`. -/
def pyStripBrackets (l : List Char) : List Char := pyStrip isBracket l

/-- Python `s.strip()` (whitespace). -/
def pyStripWS (l : List Char) : List Char := pyStrip isPyWS l

/-- Python `s.replace(c, '')`: remove every occurrence of one character. -/
def removeChar (c : Char) (l : List Char) : List Char := l.filter (fun x => !(x == c))

/-- Python `s.split(',')` on character lists: always returns at least one
(possibly empty) piece. -/
def splitComma : List Char → List (List Char)
  | [] => [[]]
  | c :: cs =>
    if c == ',' then [] :: splitComma cs
    else
      match splitComma cs with
      | [] => [[c]]
      | h :: t => (c :: h) :: t

/-- Join character lists with a comma separator (inverse of `splitComma` on
comma-free pieces); used to build the serialized shapes of claim C2. -/
def joinComma : List (List Char) → List Char
  | [] => []
  | [l] => l
  | l :: ls => l ++ ',' :: joinComma ls

/-- The string-shape decoding step of `filter_by_departments`
(src/main.py lines 136-140): strip enclosing brackets, delete every double
quote and apostrophe, split on commas, trim whitespace per piece, and drop
empty pieces. -/
def cleanSplit (s : List Char) : List (List Char) :=
  ((splitComma (removeChar aposChar (removeChar quoteChar (pyStripBrackets s)))).map
    pyStripWS).filter (fun t => !t.isEmpty)

/-- Python `<` on strings: lexicographic comparison by code point. -/
def pyLt : List Char → List Char → Bool
  | [], [] => false
  | [], _ :: _ => true
  | _ :: _, [] => false
  | a :: as, b :: bs => if a.val < b.val then true else if b.val < a.val then false else pyLt as bs

/-- Dynamically-typed values of the Python program (the JSON universe of the
remote catalog plus Python scalars). -/
inductive PyVal where
  | vnone : PyVal
  | vstr : String → PyVal
  | vint : Int → PyVal
  | vbool : Bool → PyVal
  | vlist : List PyVal → PyVal
  | vdict : List (String × PyVal) → PyVal

/-- One raw notice record from the remote catalog: a mapping from field name to
value (Python `dict`, modelled as an association list with distinct keys). -/
abbrev Rec := List (String × PyVal)

/-- Python `record.get(k)`: first binding of the key, `None` if absent. -/
def recGet (r : Rec) (k : String) : Option PyVal :=
  (List.find? (fun kv => kv.1 == k) r).map (fun kv => kv.2)

/-- The `dateparution` field of a record when it is a string (the remote
catalog serves publication dates as `YYYY-MM-DD` strings). -/
def dateparution (r : Rec) : Option String :=
  match recGet r "dateparution" with
  | some (.vstr s) => some s
  | _ => none

/-- Python `records[-1].get('dateparution','')` for a fetched page. -/
def lastDP (records : List Rec) : String :=
  match records.getLast? with
  | some r => (dateparution r).getD ""
  | none => ""

/-- The `while` loop of `get_all_records_for_date` (src/main.py lines 49-88).
`fuel` is structural fuel for the loop (see the header comment: fuel 102 can
never be exhausted because the offset ceiling bounds the iteration count).
Per iteration: stop when enough records are accumulated; request the page at
`offset` (a failure aborts the fetch, keeping the accumulated records); stop on
an empty page; keep the records whose `dateparution` equals the target date;
stop when the page's last record is dated strictly before the target (results
are sorted descending); advance the offset by the page size 100 and stop once
it exceeds 10000. -/
def fetch_loop (f : Nat → Except Unit (List Rec)) (target : String) (max_records : Nat) :
    Nat → List Rec → Nat → List Rec
  | 0, acc, _ => acc
  | fuel + 1, acc, offset =>
    if acc.length < max_records then
      match f offset with
      | .error _ => acc
      | .ok [] => acc
      | .ok (r :: rs) =>
        let records := r :: rs
        let target_records := records.filter (fun q => decide (dateparution q = some target))
        let acc2 := acc ++ target_records
        if pyLt (lastDP records).data target.data then acc2
        else if 10000 < offset + 100 then acc2
        else fetch_loop f target max_records fuel acc2 (offset + 100)
    else acc

/-- Function `get_all_records_for_date` (src/main.py lines 42-88): run the fetch loop
from offset 0 with an empty accumulator. -/
def get_all_records_for_date (f : Nat → Except Unit (List Rec)) (target : String)
    (max_records : Nat) : List Rec :=
  fetch_loop f target max_records 102 [] 0

/-- Escaping of `"`/backslash inside a JSON string literal
(`json.dumps` with `ensure_ascii=False`; control-character escapes are not
exercised by any claim). -/
def escapeJson (s : List Char) : List Char :=
  s.foldr (fun c acc => if c == quoteChar || c == '\\' then '\\' :: c :: acc else c :: acc) []

mutual

/-- Python `json.dumps(value, ensure_ascii=False)` (used by `create_excel_simple` for
nested list/dict field values), with the default `", "` and `": "` separators. -/
def json_dumps : PyVal → List Char
  | .vnone => "null".data
  | .vstr s => quoteChar :: (escapeJson s.data ++ [quoteChar])
  | .vint n => (toString n).data
  | .vbool b => if b then "true".data else "false".data
  | .vlist xs => '[' :: (dumpsElems xs ++ [']'])
  | .vdict kvs => Char.ofNat 123 :: (dumpsPairs kvs ++ [Char.ofNat 125])

/-- Comma-separated serialization of JSON array elements. -/
def dumpsElems : List PyVal → List Char
  | [] => []
  | [x] => json_dumps x
  | x :: y :: xs => json_dumps x ++ ',' :: ' ' :: dumpsElems (y :: xs)

/-- Comma-separated serialization of JSON object entries. -/
def dumpsPairs : List (String × PyVal) → List Char
  | [] => []
  | [(k, v)] => quoteChar :: (escapeJson k.data ++ quoteChar :: ':' :: ' ' :: json_dumps v)
  | (k, v) :: kv2 :: kvs =>
    (quoteChar :: (escapeJson k.data ++ quoteChar :: ':' :: ' ' :: json_dumps v)) ++
      ',' :: ' ' :: dumpsPairs (kv2 :: kvs)

end

/-- One cell of the tabular dataset. After normalization a cell is a string,
an integer, or a boolean; `clist` additionally covers the raw list shape that
`filter_by_departments` is prepared to handle in its `isinstance(..., list)`
branch (department codes are strings). -/
inductive Cell where
  | cstr : String → Cell
  | cint : Int → Cell
  | cbool : Bool → Cell
  | clist : List String → Cell
deriving DecidableEq, Repr

/-- One normalized row: the cleaned record of `create_excel_simple`
(src/main.py lines 93-103), an association list from column name to cell. -/
abbrev Row := List (String × Cell)

/-- Per-value cleaning of `create_excel_simple`: nested list/dict values are
serialized with `json.dumps`, `None` becomes the empty string, and scalars pass
through unchanged. -/
def clean_value : PyVal → Cell
  | .vnone => .cstr ""
  | .vstr s => .cstr s
  | .vint n => .cint n
  | .vbool b => .cbool b
  | .vlist xs => .cstr (String.mk (json_dumps (.vlist xs)))
  | .vdict kvs => .cstr (String.mk (json_dumps (.vdict kvs)))

/-- Per-record cleaning of `create_excel_simple`. -/
def clean_record (r : Rec) : Row := r.map (fun kv => (kv.1, clean_value kv.2))

/-- Column list of `pd.DataFrame(list_of_dicts)`: union of the records' keys in
order of first appearance. -/
def df_columns (records : List Rec) : List String :=
  records.foldl (fun acc r => r.foldl (fun acc2 kv => if kv.1 ∈ acc2 then acc2 else acc2 ++ [kv.1]) acc) []

/-- A pandas dataframe: a declared column list plus ordered rows. A key absent
from a row models a `NaN` cell in that row. -/
structure Df where
  cols : List String
  rows : List Row
deriving DecidableEq, Repr

/-- Function `create_excel_simple` (src/main.py lines 91-107): clean every record and
build a dataframe (the `target_date` argument is unused in the source). -/
def create_excel_simple (records : List Rec) (_target_date : String) : Df :=
  ⟨df_columns records, records.map clean_record⟩

/-- Reading a cell of a dataframe row: first binding of the column key;
`none` models a `NaN`/absent value. -/
def rowGet (r : Row) (k : String) : Option Cell :=
  (List.find? (fun kv => kv.1 == k) r).map (fun kv => kv.2)

/-- The shape-directed decoding of a `code_departement` cell into a token list
(src/main.py lines 134-145): a string is stripped of enclosing brackets and of
every quote character and then comma-split with per-token trimming, a list is
used as-is, and any other value is `str()`-converted, trimmed, and wrapped in a
one-element list. -/
def decode_dep : Cell → List String
  | .cstr s => (cleanSplit s.data).map (fun l => String.mk l)
  | .clist l => l
  | .cint n => [String.mk (pyStripWS (toString n).data)]
  | .cbool b => [String.mk (pyStripWS (if b then "True" else "False").data)]

/-- The inner `for dep in dep_list: ... break` loop of `filter_by_departments`
(src/main.py lines 148-152): the first token belonging to the target set wins. -/
def first_match : List String → List String → Option String
  | [], _ => none
  | d :: rest, targets => if d ∈ targets then some d else first_match rest targets

/-- Message of the `ValueError` numpy raises when a multi-element boolean
array is used as a truth value. -/
def truthAmbiguousMsg : String :=
  "The truth value of an array with more than one element is ambiguous. Use a.any() or a.all()"

/-- Message of the `ValueError` numpy raises when an empty array is used as a
truth value. -/
def truthEmptyMsg : String :=
  "The truth value of an empty array is ambiguous. Use a.size > 0 to check that an array is not empty."

/-- The truth test of `pd.isna(code_departement)` (src/main.py line 129).
On a scalar cell `pd.isna` returns a plain bool: `False` for the strings,
numbers and booleans of this universe (the `NaN` case is a missing cell,
handled before this test). On a list cell `pd.isna` returns a numpy boolean
array: a one-element array has a truth value (its element, `False` for a
string element), while an empty or multi-element array makes the `if` raise
`ValueError` — and line 129 sits outside the `try`, so that error escapes
`filter_by_departments` altogether. -/
def pd_isna_test : Cell → Except String Bool
  | .cstr _ => .ok false
  | .cint _ => .ok false
  | .cbool _ => .ok false
  | .clist [_] => .ok false
  | .clist [] => .error truthEmptyMsg
  | .clist (_ :: _ :: _) => .error truthAmbiguousMsg

/-- Per-row matching of `filter_by_departments` (src/main.py lines 124-158):
a missing/`NaN` cell is excluded up front; a present cell first undergoes the
`pd.isna` truth test — whose `ValueError` on an empty or multi-element list
cell escapes the whole filter — then an empty-string cell is excluded;
otherwise the decoded token list is scanned for the first member of the
target set. -/
def rowDept (targets : List String) (r : Row) : Except String (Option String) :=
  match rowGet r "code_departement" with
  | none => .ok none
  | some c =>
    match pd_isna_test c with
    | .error e => .error e
    | .ok true => .ok none
    | .ok false =>
      if c = .cstr "" then .ok none
      else .ok (first_match (decode_dep c) targets)

/-- The row-selection pass of `filter_by_departments` (src/main.py
lines 124-163): keep exactly the rows with a matched department code, in input
order, appending the matched code as the `code_departement_trouve` column; a
`ValueError` from the `pd.isna` truth test of any row aborts the whole pass.
(The source records kept indices plus a parallel tag list and then selects
`df.loc[indices]`; since the dataframe's index equals the row position, that is
this single pass. Upstream records never carry a `code_departement_trouve`
field, so appending the tag binding is faithful.) -/
def filterRows (targets : List String) : List Row → Except String (List Row)
  | [] => .ok []
  | r :: rs =>
    match rowDept targets r with
    | .error e => .error e
    | .ok (some d) =>
      match filterRows targets rs with
      | .error e => .error e
      | .ok rest => .ok ((r ++ [("code_departement_trouve", Cell.cstr d)]) :: rest)
    | .ok none => filterRows targets rs

/-- Function `filter_by_departments` (src/main.py lines 112-168). Both the
empty and the nonempty outcome carry the original columns plus
`code_departement_trouve`; a `ValueError` raised by the `pd.isna` truth test
(line 129, outside the `try`) escapes the function instead. -/
def filter_by_departments (df : Df) (targets : List String) : Except String Df :=
  match filterRows targets df.rows with
  | .error e => .error e
  | .ok rows => .ok ⟨df.cols ++ ["code_departement_trouve"], rows⟩

/-- The values of the filtered dataframe's `code_departement_trouve` column in
row order: the matched code of every surviving row. It is consulted only on
the success path of `filterRows`, where no row raises. -/
def matched_tags (targets : List String) : List Row → List String
  | [] => []
  | r :: rs =>
    match rowDept targets r with
    | .ok (some d) => d :: matched_tags targets rs
    | _ => matched_tags targets rs

/-- Distinct values of a list in order of first appearance. -/
def dedupFirst : List String → List String
  | [] => []
  | x :: xs => x :: (dedupFirst xs).filter (fun y => !(y == x))

/-- Python `pandas.Series.value_counts().to_dict()`: the mapping from distinct value
to occurrence count. (pandas enumerates keys by descending count; only the
mapping itself is relied upon, so first-appearance order is used here.) -/
def value_counts (l : List String) : List (String × Nat) :=
  (dedupFirst l).map (fun s => (s, l.count s))

/-- Job lifecycle states (src/main.py: the `status` field of a jobs entry). -/
inductive JStatus where
  | started : JStatus
  | processing : JStatus
  | completed : JStatus
  | error : JStatus
deriving DecidableEq, Repr

/-- One entry of the in-memory `jobs` map. `full_df`/`filtered_df` are `none`
while the corresponding dict key is absent. -/
structure JobState where
  status : JStatus
  message : String
  target_date : String
  departments : List String
  total_records : Nat
  filtered_records : Nat
  department_distribution : List (String × Nat)
  full_df : Option Df
  filtered_df : Option Df
deriving DecidableEq, Repr

/-- The jobs entry created by the `/extract` handler (src/main.py
lines 221-228) before the background task runs. -/
def initial_job (target_date : String) (departments : List String) : JobState :=
  { status := .started
    message := "Job created, starting processing..."
    target_date := target_date
    departments := departments
    total_records := 0
    filtered_records := 0
    department_distribution := []
    full_df := none
    filtered_df := none }

/-- Function `process_extraction` (src/main.py lines 171-214) as a transformer of the
job's entry. The `except Exception` branch overwrites `status` and `message`
and leaves every other key as the pipeline left it; it is reached two ways:
by the modelled `ValueError` that the filter's `pd.isna` truth test can raise,
and by `fault = some e`, an injected fault from parts outside this embedding
(pandas internals, etc.; the embedded stages themselves are total).
`fault = none` is the run where no such outside fault occurs. -/
def process_extraction (f : Nat → Except Unit (List Rec)) (target_date : String)
    (max_records : Nat) (departments : List String) (fault : Option String)
    (j : JobState) : JobState :=
  match fault with
  | some e => { j with status := .error, message := "Error during processing: " ++ e }
  | none =>
    let j1 := { j with status := .processing, message := "Fetching BOAMP records..." }
    match get_all_records_for_date f target_date max_records with
    | [] =>
      { j1 with status := .completed
                message := "No records found for date " ++ target_date
                total_records := 0
                filtered_records := 0 }
    | r :: rs =>
      let all_records := r :: rs
      let j2 := { j1 with total_records := all_records.length
                          message := "Found " ++ toString all_records.length ++ " records. Processing..." }
      let df := create_excel_simple all_records target_date
      match filter_by_departments df departments with
      | .error e => { j2 with status := .error, message := "Error during processing: " ++ e }
      | .ok df_filtered =>
        let j3 := { j2 with filtered_records := df_filtered.rows.length
                            message := "Processing complete. " ++ toString df_filtered.rows.length ++ " records after filtering."
                            full_df := some df
                            filtered_df := some df_filtered
                            department_distribution :=
                              if 0 < df_filtered.rows.length then
                                value_counts (matched_tags departments df.rows)
                              else [] }
        { j3 with status := .completed }

/-- Lookup in the in-memory `jobs` map. -/
def lookupJob (jobs : List (String × JobState)) (jid : String) : Option JobState :=
  (List.find? (fun kv => kv.1 == jid) jobs).map (fun kv => kv.2)

/-- The response body of the `/job/{job_id}` status query. -/
structure StatusView where
  status : JStatus
  message : String
  total_records : Nat
  filtered_records : Nat
  department_distribution : List (String × Nat)
deriving DecidableEq, Repr

/-- Function `get_job_status` (src/main.py lines 245-258). -/
def get_job_status (jobs : List (String × JobState)) (jid : String) :
    Except String StatusView :=
  match lookupJob jobs jid with
  | none => .error "Job not found"
  | some j => .ok ⟨j.status, j.message, j.total_records, j.filtered_records, j.department_distribution⟩

/-- The spreadsheet produced by `df.to_excel(..., index=False)`: a header row
of column names followed by one row per dataframe row in column order, with
absent/`NaN` cells rendered as empty strings. -/
def dfSheet (df : Df) : List (List Cell) :=
  (df.cols.map Cell.cstr) :: df.rows.map (fun r => df.cols.map (fun c => (rowGet r c).getD (Cell.cstr "")))

/-- Function `download_full_data` (src/main.py lines 260-282): a missing job or a
non-`completed` status yields the 404 "Data not available"; a completed job
without a stored full dataframe yields the 404 "Full data not available";
otherwise the stored dataframe is encoded as a spreadsheet. -/
def download_full_data (jobs : List (String × JobState)) (jid : String) :
    Except String (List (List Cell)) :=
  match lookupJob jobs jid with
  | none => .error "Data not available"
  | some j =>
    if j.status = .completed then
      match j.full_df with
      | some df => .ok (dfSheet df)
      | none => .error "Full data not available"
    else .error "Data not available"

/-- Function `download_filtered_data` (src/main.py lines 284-306), the filtered-dataset
variant of `download_full_data`. -/
def download_filtered_data (jobs : List (String × JobState)) (jid : String) :
    Except String (List (List Cell)) :=
  match lookupJob jobs jid with
  | none => .error "Data not available"
  | some j =>
    if j.status = .completed then
      match j.filtered_df with
      | some df => .ok (dfSheet df)
      | none => .error "Filtered data not available"
    else .error "Data not available"

/-- Sanity check for the fuel encoding of the `while` loop: any two fuel
budgets large enough for the offset ceiling produce the same fetch result, so
the fixed budget 102 used by `get_all_records_for_date` is not observable. -/
theorem fetch_loop_fuel_irrelevant (f : Nat → Except Unit (List Rec)) (target : String)
    (m : Nat) : ∀ fuel₁ fuel₂ acc offset, offset ≤ 10000 →
    10200 ≤ fuel₁ * 100 + offset → 10200 ≤ fuel₂ * 100 + offset →
    fetch_loop f target m fuel₁ acc offset = fetch_loop f target m fuel₂ acc offset := by
  intro fuel₁
  induction fuel₁ with
  | zero => intro fuel₂ acc offset h1 h2 h3; omega
  | succ n ih =>
    intro fuel₂ acc offset h1 h2 h3
    cases fuel₂ with
    | zero => omega
    | succ n₂ =>
      show fetch_loop f target m (n + 1) acc offset = fetch_loop f target m (n₂ + 1) acc offset
      simp only [fetch_loop]
      by_cases hlen : acc.length < m
      · simp only [if_pos hlen]
        cases hf : f offset with
        | error e => rfl
        | ok recs =>
          cases recs with
          | nil => rfl
          | cons r rs =>
            by_cases hlast : pyLt (lastDP (r :: rs)).data target.data
            · simp only [if_pos hlast]
            · simp only [if_neg hlast]
              by_cases hoff : 10000 < offset + 100
              · simp only [if_pos hoff]
              · simp only [if_neg hoff]
                exact ih n₂ _ (offset + 100) (by omega) (by omega) (by omega)
      · simp only [if_neg hlen]

/-- Every record the fetch loop adds to the accumulator passed the
`dateparution == target_date` filter. -/
theorem fetch_loop_mem (f : Nat → Except Unit (List Rec)) (target : String) (m : Nat) :
    ∀ fuel acc offset q, q ∈ fetch_loop f target m fuel acc offset →
      q ∈ acc ∨ dateparution q = some target := by
  intro fuel
  induction fuel with
  | zero => intro acc offset q hq; exact Or.inl hq
  | succ n ih =>
    intro acc offset q hq
    simp only [fetch_loop] at hq
    by_cases hlen : acc.length < m
    · simp only [if_pos hlen] at hq
      cases hf : f offset with
      | error e => rw [hf] at hq; exact Or.inl hq
      | ok recs =>
        rw [hf] at hq
        cases recs with
        | nil => exact Or.inl hq
        | cons r rs =>
          have hsplit : ∀ p : Rec,
              p ∈ acc ++ (r :: rs).filter (fun q => decide (dateparution q = some target)) →
              p ∈ acc ∨ dateparution p = some target := by
            intro p hp
            rcases List.mem_append.mp hp with h | h
            · exact Or.inl h
            · right
              have := List.mem_filter.mp h
              exact of_decide_eq_true this.2
          by_cases hlast : pyLt (lastDP (r :: rs)).data target.data
          · simp only [if_pos hlast] at hq; exact hsplit q hq
          · simp only [if_neg hlast] at hq
            by_cases hoff : 10000 < offset + 100
            · simp only [if_pos hoff] at hq; exact hsplit q hq
            · simp only [if_neg hoff] at hq
              rcases ih _ _ q hq with h | h
              · exact hsplit q h
              · exact Or.inr h
    · simp only [if_neg hlen] at hq; exact Or.inl hq

/-- C4: over a descending-sorted source, when the page fetched at `offset` has
a last record dated strictly before the target date, the loop returns right
after processing that page — even though fewer than `max_records` records are
accumulated — and the result is the same for every source agreeing on that
page, i.e. later pages are never consulted. -/
theorem c4_descending_cutoff_stops_fetch (target : String) (m : Nat) (acc : List Rec)
    (offset fuel : Nat) (records : List Rec)
    (hlen : acc.length < m)
    (hne : records ≠ [])
    (hlast : pyLt (lastDP records).data target.data = true)
    (hshort : (acc ++ records.filter (fun q => decide (dateparution q = some target))).length < m) :
    ∀ f : Nat → Except Unit (List Rec), f offset = .ok records →
      fetch_loop f target m (fuel + 1) acc offset =
        acc ++ records.filter (fun q => decide (dateparution q = some target)) := by
  intro f hf
  cases records with
  | nil => exact absurd rfl hne
  | cons r rs => simp only [fetch_loop, if_pos hlen, hf, hlast, if_true]

/-- First page of the C4 witness source: dated on the target date. -/
def c4rec1 : Rec := [("dateparution", PyVal.vstr "2024-05-01")]

/-- Second record of the C4 witness page: dated strictly before the target. -/
def c4rec2 : Rec := [("dateparution", PyVal.vstr "2024-04-30")]

/-- C4 witness source: every page is the two-record page above. -/
def c4fetch : Nat → Except Unit (List Rec) := fun _ => .ok [c4rec1, c4rec2]

/-- Witness for C4 at a concrete page whose last record predates the target. -/
theorem c4_witness :
    fetch_loop c4fetch "2024-05-01" 5000 (100 + 1) [] 0 =
      [] ++ [c4rec1, c4rec2].filter (fun q => decide (dateparution q = some "2024-05-01")) :=
  c4_descending_cutoff_stops_fetch "2024-05-01" 5000 [] 0 100 [c4rec1, c4rec2]
    (by decide) (List.cons_ne_nil _ _) (by decide) (by decide) c4fetch rfl

/-- A target-dated record of the C5 witness source. -/
def c5rec1 : Rec := [("dateparution", PyVal.vstr "2024-05-01")]

/-- A second target-dated record of the C5 witness source. -/
def c5rec2 : Rec := [("dateparution", PyVal.vstr "2024-05-01"), ("code_departement", PyVal.vstr "75")]

/-- C5 witness source: one page of two target-dated records, then nothing. -/
def c5fetch : Nat → Except Unit (List Rec) := fun o => if o = 0 then .ok [c5rec1, c5rec2] else .ok []

/-- C5: `max_records` only gates the loop's continuation test. Every returned
record passed the `dateparution == target_date` filter (no truncation to
`max_records` governs the count), and with `max_records = 1` the concrete
source above makes the fetch return two records — strictly more than
`max_records` — because the whole page's matching records are appended after
the length test. -/
theorem c5_max_records_not_a_cap :
    (∀ (f : Nat → Except Unit (List Rec)) (target : String) (m : Nat) (q : Rec),
        q ∈ get_all_records_for_date f target m → dateparution q = some target) ∧
      1 < (get_all_records_for_date c5fetch "2024-05-01" 1).length := by
  constructor
  · intro f target m q hq
    rcases fetch_loop_mem f target m 102 [] 0 q hq with h | h
    · cases h
    · exact h
  · decide

/-- Witness for C5's universal part at a concrete fetched record. -/
theorem c5_witness :
    c5rec1 ∈ get_all_records_for_date c5fetch "2024-05-01" 1 ∧
      dateparution c5rec1 = some "2024-05-01" := by
  have hm : c5rec1 ∈ get_all_records_for_date c5fetch "2024-05-01" 1 := by
    rw [show get_all_records_for_date c5fetch "2024-05-01" 1 = [c5rec1, c5rec2] from rfl]
    exact List.mem_cons_self _ _
  exact ⟨hm, c5_max_records_not_a_cap.1 c5fetch "2024-05-01" 1 c5rec1 hm⟩

/-- Normalization never produces a raw list cell. -/
theorem clean_value_not_list (v : PyVal) (l : List String) : clean_value v ≠ .clist l := by
  cases v <;> simp [clean_value]

/-- Reading a column of a cleaned record reads the cleaned source value. -/
theorem rowGet_clean_record (rec : Rec) (k : String) :
    rowGet (clean_record rec) k = (recGet rec k).map (fun v => clean_value v) := by
  unfold rowGet clean_record recGet
  rw [List.find?_map]
  rw [show ((fun kv : String × Cell => kv.1 == k) ∘
      (fun kv : String × PyVal => (kv.1, clean_value kv.2))) =
      (fun kv : String × PyVal => kv.1 == k) from rfl]
  cases List.find? (fun kv : String × PyVal => kv.1 == k) rec <;> rfl

/-- The `pd.isna` truth test succeeds, with `False`, on every normalized
cell: normalization serializes lists away, so the `ValueError` path is
unreachable from the pipeline. -/
theorem pd_isna_test_clean (v : PyVal) : pd_isna_test (clean_value v) = .ok false := by
  cases v <;> rfl

/-- Row matching never raises on a normalized row. -/
theorem rowDept_clean_ok (targets : List String) (rec : Rec) :
    ∃ o, rowDept targets (clean_record rec) = .ok o := by
  unfold rowDept
  rw [rowGet_clean_record]
  cases h : recGet rec "code_departement" with
  | none => exact ⟨none, rfl⟩
  | some v =>
    simp only [Option.map]
    rw [pd_isna_test_clean v]
    by_cases hc : clean_value v = .cstr ""
    · exact ⟨none, by rw [if_pos hc]⟩
    · exact ⟨first_match (decode_dep (clean_value v)) targets, by rw [if_neg hc]⟩

/-- The filter pass never raises on normalized rows. -/
theorem filterRows_clean_ok (targets : List String) :
    ∀ records : List Rec, ∃ rows, filterRows targets (records.map clean_record) = .ok rows := by
  intro records
  induction records with
  | nil => exact ⟨[], rfl⟩
  | cons rec recs ih =>
    obtain ⟨rows, hrows⟩ := ih
    obtain ⟨o, ho⟩ := rowDept_clean_ok targets rec
    simp only [List.map_cons, filterRows]
    rw [ho]
    cases o with
    | none => exact ⟨rows, hrows⟩
    | some d =>
      rw [hrows]
      exact ⟨_, rfl⟩

/-- On the dataframe built by normalization the whole filter succeeds, and its
surviving rows are those of the underlying row-selection pass. -/
theorem filter_by_departments_clean (targets : List String) (records : List Rec) (td : String) :
    ∃ rows, filterRows targets (records.map clean_record) = .ok rows ∧
      filter_by_departments (create_excel_simple records td) targets =
        .ok ⟨df_columns records ++ ["code_departement_trouve"], rows⟩ := by
  obtain ⟨rows, hrows⟩ := filterRows_clean_ok targets records
  refine ⟨rows, hrows, ?_⟩
  unfold filter_by_departments
  rw [show (create_excel_simple records td).rows = records.map clean_record from rfl, hrows]
  rfl

/-- Sanity check of the modelled error path: a raw multi-element list cell
makes the whole filter raise the `ValueError` of the `pd.isna` truth test
(src/main.py line 129, outside the `try`) instead of matching the row. -/
theorem filter_raises_on_multielement_list :
    filter_by_departments ⟨["code_departement"],
      [[("code_departement", Cell.clist ["92", "75"])]]⟩ ["75", "92"] =
      .error truthAmbiguousMsg := rfl

/-- C6: a transport/HTTP failure on the page request at `offset` makes the
fetch return exactly the records accumulated so far, and a fault-free pipeline
run always ends in `completed` — a fetch failure never drives the job to the
`error` status. -/
theorem c6_transport_failure_keeps_accumulated (f : Nat → Except Unit (List Rec))
    (target : String) (m : Nat) (acc : List Rec) (offset fuel : Nat)
    (deps : List String) (j : JobState)
    (hlen : acc.length < m) (hfail : f offset = .error ()) :
    fetch_loop f target m (fuel + 1) acc offset = acc ∧
    (process_extraction f target m deps none j).status = .completed := by
  constructor
  · simp only [fetch_loop, if_pos hlen, hfail]
  · unfold process_extraction
    cases hga : get_all_records_for_date f target m with
    | nil => simp only [hga]
    | cons r rs =>
      obtain ⟨rows, _, hflt⟩ := filter_by_departments_clean deps (r :: rs) target
      simp only [hga, hflt]

/-- C6 witness source: the very first page request fails. -/
def c6fetch : Nat → Except Unit (List Rec) := fun _ => .error ()

/-- Witness for C6 at a concrete failing source. -/
theorem c6_witness :
    fetch_loop c6fetch "2024-05-01" 5000 (101 + 1) [] 0 = [] ∧
      (process_extraction c6fetch "2024-05-01" 5000 ["75"] none
        (initial_job "2024-05-01" ["75"])).status = .completed :=
  c6_transport_failure_keeps_accumulated c6fetch "2024-05-01" 5000 [] 0 101 ["75"]
    (initial_job "2024-05-01" ["75"]) (by decide) rfl

/-- C7: an injected pipeline fault flips the job to `status = error` with a
message describing the fault, and a later status query observes exactly that
state — the caller of the submission sees the failure only this way. -/
theorem c7_uncaught_fault_flips_job_to_error (f : Nat → Except Unit (List Rec))
    (target : String) (m : Nat) (deps : List String) (e : String) (j : JobState)
    (jid : String) :
    (process_extraction f target m deps (some e) j).status = .error ∧
    (process_extraction f target m deps (some e) j).message = "Error during processing: " ++ e ∧
    ∃ v : StatusView,
      get_job_status [(jid, process_extraction f target m deps (some e) j)] jid = .ok v ∧
      v.status = .error ∧ v.message = "Error during processing: " ++ e := by
  refine ⟨rfl, rfl,
    ⟨⟨.error, "Error during processing: " ++ e, j.total_records, j.filtered_records,
      j.department_distribution⟩, ?_, rfl, rfl⟩⟩
  simp [get_job_status, lookupJob]
  exact ⟨rfl, rfl, rfl, rfl, rfl⟩

/-- C1 (amended): a fetch yielding zero records short-circuits the job to
`completed` with `total_records = 0` and `filtered_records = 0`, but the
zero-record branch stores no datasets, so on a job entry without stored
dataframes both download endpoints answer the 404 "not available" error
rather than an empty spreadsheet. -/
theorem c1_amended_zero_records (f : Nat → Except Unit (List Rec)) (target : String)
    (m : Nat) (deps : List String) (j : JobState) (jid : String)
    (hga : get_all_records_for_date f target m = [])
    (hfull : j.full_df = none) (hfilt : j.filtered_df = none) :
    (process_extraction f target m deps none j).status = .completed ∧
    (process_extraction f target m deps none j).total_records = 0 ∧
    (process_extraction f target m deps none j).filtered_records = 0 ∧
    download_full_data [(jid, process_extraction f target m deps none j)] jid =
      .error "Full data not available" ∧
    download_filtered_data [(jid, process_extraction f target m deps none j)] jid =
      .error "Filtered data not available" := by
  have hj : process_extraction f target m deps none j =
      { j with status := .completed,
               message := "No records found for date " ++ target,
               total_records := 0, filtered_records := 0 } := by
    unfold process_extraction
    rw [hga]
  rw [hj]
  refine ⟨rfl, rfl, rfl, ?_, ?_⟩
  · simp [download_full_data, lookupJob, hfull]
  · simp [download_filtered_data, lookupJob, hfilt]

/-- C1 witness/counterexample source: the upstream catalog has no records. -/
def c1fetch : Nat → Except Unit (List Rec) := fun _ => .ok []

/-- Witness for C1 (amended) at a concrete zero-record submission. -/
theorem c1_witness :
    (process_extraction c1fetch "2024-05-01" 5000 ["75"] none
        (initial_job "2024-05-01" ["75"])).status = .completed ∧
    (process_extraction c1fetch "2024-05-01" 5000 ["75"] none
        (initial_job "2024-05-01" ["75"])).total_records = 0 ∧
    (process_extraction c1fetch "2024-05-01" 5000 ["75"] none
        (initial_job "2024-05-01" ["75"])).filtered_records = 0 ∧
    download_full_data [("job1", process_extraction c1fetch "2024-05-01" 5000 ["75"] none
        (initial_job "2024-05-01" ["75"]))] "job1" = .error "Full data not available" ∧
    download_filtered_data [("job1", process_extraction c1fetch "2024-05-01" 5000 ["75"] none
        (initial_job "2024-05-01" ["75"]))] "job1" = .error "Filtered data not available" :=
  c1_amended_zero_records c1fetch "2024-05-01" 5000 ["75"]
    (initial_job "2024-05-01" ["75"]) "job1" rfl rfl rfl

/-- Counterexample to C1 as stated: on a concrete zero-record submission the
job completes with zero counts, yet neither download endpoint returns a
spreadsheet — both answer the 404 "not available" error, because the
zero-record branch of `process_extraction` returns before storing any
dataframe. -/
theorem c1_counterexample :
    (process_extraction c1fetch "2024-05-02" 5000 ["75"] none
        (initial_job "2024-05-02" ["75"])).status = .completed ∧
    (¬ ∃ s, download_full_data [("job2", process_extraction c1fetch "2024-05-02" 5000 ["75"] none
        (initial_job "2024-05-02" ["75"]))] "job2" = .ok s) ∧
    (¬ ∃ s, download_filtered_data [("job2", process_extraction c1fetch "2024-05-02" 5000 ["75"] none
        (initial_job "2024-05-02" ["75"]))] "job2" = .ok s) := by
  refine ⟨rfl, ?_, ?_⟩
  · rintro ⟨s, hs⟩
    rw [show download_full_data [("job2", process_extraction c1fetch "2024-05-02" 5000 ["75"] none
        (initial_job "2024-05-02" ["75"]))] "job2" = .error "Full data not available" from rfl] at hs
    cases hs
  · rintro ⟨s, hs⟩
    rw [show download_filtered_data [("job2", process_extraction c1fetch "2024-05-02" 5000 ["75"] none
        (initial_job "2024-05-02" ["75"]))] "job2" = .error "Filtered data not available" from rfl] at hs
    cases hs

/-- C9: each download endpoint returns a spreadsheet exactly when the job
exists, its status is `completed`, and the corresponding dataset is stored;
the spreadsheet returned is the stored dataset's full sheet (never a partial
file); in every other case the endpoint returns a "not available" error. -/
theorem c9_download_gating (jobs : List (String × JobState)) (jid : String) :
    ((∃ s, download_full_data jobs jid = .ok s) ↔
      ∃ j df, lookupJob jobs jid = some j ∧ j.status = .completed ∧ j.full_df = some df) ∧
    ((∃ s, download_filtered_data jobs jid = .ok s) ↔
      ∃ j df, lookupJob jobs jid = some j ∧ j.status = .completed ∧ j.filtered_df = some df) ∧
    (∀ j df, lookupJob jobs jid = some j → j.status = .completed → j.full_df = some df →
      download_full_data jobs jid = .ok (dfSheet df)) ∧
    (∀ j df, lookupJob jobs jid = some j → j.status = .completed → j.filtered_df = some df →
      download_filtered_data jobs jid = .ok (dfSheet df)) ∧
    ((¬ ∃ j df, lookupJob jobs jid = some j ∧ j.status = .completed ∧ j.full_df = some df) →
      ∃ msg, download_full_data jobs jid = .error msg) ∧
    ((¬ ∃ j df, lookupJob jobs jid = some j ∧ j.status = .completed ∧ j.filtered_df = some df) →
      ∃ msg, download_filtered_data jobs jid = .error msg) := by
  have hfull : ∀ j df, lookupJob jobs jid = some j → j.status = .completed →
      j.full_df = some df → download_full_data jobs jid = .ok (dfSheet df) := by
    intro j df hl hst hdf
    unfold download_full_data
    rw [hl]
    simp [hst, hdf]
  have hfilt : ∀ j df, lookupJob jobs jid = some j → j.status = .completed →
      j.filtered_df = some df → download_filtered_data jobs jid = .ok (dfSheet df) := by
    intro j df hl hst hdf
    unfold download_filtered_data
    rw [hl]
    simp [hst, hdf]
  have hfull_iff : (∃ s, download_full_data jobs jid = .ok s) ↔
      ∃ j df, lookupJob jobs jid = some j ∧ j.status = .completed ∧ j.full_df = some df := by
    constructor
    · rintro ⟨s, hs⟩
      unfold download_full_data at hs
      split at hs
      · cases hs
      · next j hl =>
        split at hs
        · next hst =>
          split at hs
          · next df hdf => exact ⟨j, df, hl, hst, hdf⟩
          · cases hs
        · cases hs
    · rintro ⟨j, df, hl, hst, hdf⟩
      exact ⟨dfSheet df, hfull j df hl hst hdf⟩
  have hfilt_iff : (∃ s, download_filtered_data jobs jid = .ok s) ↔
      ∃ j df, lookupJob jobs jid = some j ∧ j.status = .completed ∧ j.filtered_df = some df := by
    constructor
    · rintro ⟨s, hs⟩
      unfold download_filtered_data at hs
      split at hs
      · cases hs
      · next j hl =>
        split at hs
        · next hst =>
          split at hs
          · next df hdf => exact ⟨j, df, hl, hst, hdf⟩
          · cases hs
        · cases hs
    · rintro ⟨j, df, hl, hst, hdf⟩
      exact ⟨dfSheet df, hfilt j df hl hst hdf⟩
  refine ⟨hfull_iff, hfilt_iff, hfull, hfilt, ?_, ?_⟩
  · intro hno
    cases he : download_full_data jobs jid with
    | error msg => exact ⟨msg, rfl⟩
    | ok s => exact absurd (hfull_iff.mp ⟨s, he⟩) hno
  · intro hno
    cases he : download_filtered_data jobs jid with
    | error msg => exact ⟨msg, rfl⟩
    | ok s => exact absurd (hfilt_iff.mp ⟨s, he⟩) hno

/-- Stored dataset of the C9 witness job. -/
def c9df : Df := ⟨["code_departement"], [[("code_departement", Cell.cstr "75")]]⟩

/-- A completed job with both datasets stored, for the C9 witness. -/
def c9job : JobState :=
  { status := .completed
    message := "done"
    target_date := "2024-05-01"
    departments := ["75"]
    total_records := 1
    filtered_records := 1
    department_distribution := [("75", 1)]
    full_df := some c9df
    filtered_df := some c9df }

/-- Witness for C9: on a concrete completed job with stored datasets both
endpoints do return a spreadsheet, and on a processing job they do not. -/
theorem c9_witness :
    (∃ s, download_full_data [("j1", c9job)] "j1" = .ok s) ∧
      (∃ s, download_filtered_data [("j1", c9job)] "j1" = .ok s) :=
  ⟨(c9_download_gating [("j1", c9job)] "j1").1.mpr ⟨c9job, c9df, rfl, rfl, rfl⟩,
   (c9_download_gating [("j1", c9job)] "j1").2.1.mpr ⟨c9job, c9df, rfl, rfl, rfl⟩⟩

/-- The matcher's inner loop returns the first token of the list that belongs
to the target set: the returned token is at some position `i`, is a target,
and no earlier token is a target. -/
theorem first_match_is_first (targets : List String) :
    ∀ deps : List String, (∃ d, d ∈ deps ∧ d ∈ targets) →
      ∃ i, ∃ hi : i < deps.length,
        first_match deps targets = some (deps.get ⟨i, hi⟩) ∧
        deps.get ⟨i, hi⟩ ∈ targets ∧
        ∀ d ∈ deps.take i, d ∉ targets := by
  intro deps
  induction deps with
  | nil => rintro ⟨d, hd, _⟩; cases hd
  | cons a rest ih =>
    intro hex
    by_cases ha : a ∈ targets
    · refine ⟨0, Nat.succ_pos _, ?_, ?_, ?_⟩
      · simp [first_match, ha]
      · simpa using ha
      · simp
    · have hex' : ∃ d, d ∈ rest ∧ d ∈ targets := by
        obtain ⟨d, hd, hdt⟩ := hex
        rcases List.mem_cons.mp hd with rfl | hd'
        · exact absurd hdt ha
        · exact ⟨d, hd', hdt⟩
      obtain ⟨i, hi, h1, h2, h3⟩ := ih hex'
      refine ⟨i + 1, Nat.succ_lt_succ hi, ?_, ?_, ?_⟩
      · simpa [first_match, ha] using h1
      · simpa using h2
      · intro d hd
        rw [List.take_succ_cons] at hd
        rcases List.mem_cons.mp hd with rfl | hd'
        · exact ha
        · exact h3 d hd'

/-- C3: whenever the decoded department-code token list of a cell meets the
target set, the matcher records the first matching token in list order — no
earlier token is a target. Concretely, a fetched record whose codes are the
list `["92","75"]` is normalized to the serialized string `["92", "75"]`
(a raw multi-element list cell would instead make the source raise in the
`pd.isna` truth test, see `filter_raises_on_multielement_list`), and filtering
that row against targets `{"75","92"}` records the code `"92"`. -/
theorem c3_first_match_tie_break :
    (∀ (c : Cell) (targets : List String), (∃ d, d ∈ decode_dep c ∧ d ∈ targets) →
      ∃ i, ∃ hi : i < (decode_dep c).length,
        first_match (decode_dep c) targets = some ((decode_dep c).get ⟨i, hi⟩) ∧
        (decode_dep c).get ⟨i, hi⟩ ∈ targets ∧
        ∀ d ∈ (decode_dep c).take i, d ∉ targets) ∧
    filter_by_departments
        (create_excel_simple [[("code_departement",
          PyVal.vlist [PyVal.vstr "92", PyVal.vstr "75"])]] "2024-05-01") ["75", "92"] =
      .ok ⟨["code_departement", "code_departement_trouve"],
        [[("code_departement", Cell.cstr "[\"92\", \"75\"]"),
          ("code_departement_trouve", Cell.cstr "92")]]⟩ :=
  ⟨fun c targets hex => first_match_is_first targets (decode_dep c) hex, rfl⟩

/-- Witness for C3 at the claim's concrete example in its normalized,
serialized-string cell shape. -/
theorem c3_witness :
    (∃ d, d ∈ decode_dep (Cell.cstr "[\"92\", \"75\"]") ∧ d ∈ ["75", "92"]) ∧
      ∃ i, ∃ hi : i < (decode_dep (Cell.cstr "[\"92\", \"75\"]")).length,
        first_match (decode_dep (Cell.cstr "[\"92\", \"75\"]")) ["75", "92"] =
          some ((decode_dep (Cell.cstr "[\"92\", \"75\"]")).get ⟨i, hi⟩) ∧
        (decode_dep (Cell.cstr "[\"92\", \"75\"]")).get ⟨i, hi⟩ ∈ ["75", "92"] ∧
        ∀ d ∈ (decode_dep (Cell.cstr "[\"92\", \"75\"]")).take i, d ∉ ["75", "92"] := by
  have hex : ∃ d, d ∈ decode_dep (Cell.cstr "[\"92\", \"75\"]") ∧ d ∈ ["75", "92"] := by decide
  exact ⟨hex, c3_first_match_tie_break.1 (Cell.cstr "[\"92\", \"75\"]") ["75", "92"] hex⟩

/-- The filter pass never produces more rows than its input. -/
theorem filterRows_length_le (targets : List String) :
    ∀ rows rows2 : List Row, filterRows targets rows = .ok rows2 →
      rows2.length ≤ rows.length := by
  intro rows
  induction rows with
  | nil =>
    intro rows2 h
    cases h
    exact Nat.le_refl _
  | cons r rs ih =>
    intro rows2 h
    simp only [filterRows] at h
    cases hr : rowDept targets r with
    | error e => rw [hr] at h; cases h
    | ok o =>
      rw [hr] at h
      cases o with
      | none => exact Nat.le_succ_of_le (ih rows2 h)
      | some d =>
        cases hrest : filterRows targets rs with
        | error e => rw [hrest] at h; cases h
        | ok rest =>
          rw [hrest] at h
          cases h
          simpa using Nat.succ_le_succ (ih rest hrest)

/-- Dropping the appended `code_departement_trouve` binding from every
filtered row recovers an order-preserving selection (sublist) of the input
rows: no duplication, no synthesis. -/
theorem filterRows_dropLast_sublist (targets : List String) :
    ∀ rows rows2 : List Row, filterRows targets rows = .ok rows2 →
      (rows2.map List.dropLast).Sublist rows := by
  intro rows
  induction rows with
  | nil =>
    intro rows2 h
    cases h
    simp
  | cons r rs ih =>
    intro rows2 h
    simp only [filterRows] at h
    cases hr : rowDept targets r with
    | error e => rw [hr] at h; cases h
    | ok o =>
      rw [hr] at h
      cases o with
      | none => exact (ih rows2 h).cons r
      | some d =>
        cases hrest : filterRows targets rs with
        | error e => rw [hrest] at h; cases h
        | ok rest =>
          rw [hrest] at h
          cases h
          simp only [List.map_cons]
          rw [show (r ++ [("code_departement_trouve", Cell.cstr d)]).dropLast = r by simp]
          exact (ih rest hrest).cons₂ r

/-- Closed form of `process_extraction` on a fault-free run whose fetch
returns at least one record and whose filter pass succeeds. -/
theorem process_extraction_cons (f : Nat → Except Unit (List Rec)) (target : String)
    (m : Nat) (deps : List String) (j : JobState) (r : Rec) (rs : List Rec) (dff : Df)
    (hga : get_all_records_for_date f target m = r :: rs)
    (hflt : filter_by_departments (create_excel_simple (r :: rs) target) deps = .ok dff) :
    process_extraction f target m deps none j =
      { j with
        status := .completed
        message := "Processing complete. " ++ toString dff.rows.length ++ " records after filtering."
        total_records := (r :: rs).length
        filtered_records := dff.rows.length
        full_df := some (create_excel_simple (r :: rs) target)
        filtered_df := some dff
        department_distribution :=
          if 0 < dff.rows.length then
            value_counts (matched_tags deps (create_excel_simple (r :: rs) target).rows)
          else [] } := by
  unfold process_extraction
  simp only [hga, hflt]

/-- C8: a fault-free job with a nonzero fetch completes with
`filtered_records` equal to the filtered dataset's row count,
`filtered_records ≤ total_records`, and — after dropping the appended matched
code binding — the filtered rows form a sublist of the full dataset's rows:
each filtered row corresponds to exactly one distinct full row, none
duplicated, none synthesized. -/
theorem c8_filtered_rows_correspond (f : Nat → Except Unit (List Rec)) (target : String)
    (m : Nat) (deps : List String) (j : JobState)
    (hne : get_all_records_for_date f target m ≠ []) :
    ∃ df dff,
      (process_extraction f target m deps none j).status = .completed ∧
      (process_extraction f target m deps none j).full_df = some df ∧
      (process_extraction f target m deps none j).filtered_df = some dff ∧
      (process_extraction f target m deps none j).filtered_records = dff.rows.length ∧
      (process_extraction f target m deps none j).total_records = df.rows.length ∧
      (process_extraction f target m deps none j).filtered_records ≤
        (process_extraction f target m deps none j).total_records ∧
      (dff.rows.map List.dropLast).Sublist df.rows := by
  cases hga : get_all_records_for_date f target m with
  | nil => exact absurd hga hne
  | cons r rs =>
    obtain ⟨rows, hrows, hflt⟩ := filter_by_departments_clean deps (r :: rs) target
    rw [process_extraction_cons f target m deps j r rs _ hga hflt]
    refine ⟨create_excel_simple (r :: rs) target,
      ⟨df_columns (r :: rs) ++ ["code_departement_trouve"], rows⟩,
      rfl, rfl, rfl, rfl, ?_, ?_, ?_⟩
    · simp [create_excel_simple]
    · show rows.length ≤ (r :: rs).length
      calc rows.length
          ≤ ((r :: rs).map clean_record).length :=
            filterRows_length_le deps ((r :: rs).map clean_record) rows hrows
        _ = (r :: rs).length := List.length_map _ _
    · exact filterRows_dropLast_sublist deps ((r :: rs).map clean_record) rows hrows

/-- The single record of the C8 witness source. -/
def c8rec : Rec :=
  [("dateparution", PyVal.vstr "2024-05-01"), ("code_departement", PyVal.vstr "75"),
   ("objet", PyVal.vstr "travaux")]

/-- C8 witness source: one page with one target-dated record, then nothing. -/
def c8fetch : Nat → Except Unit (List Rec) := fun o => if o = 0 then .ok [c8rec] else .ok []

/-- Witness for C8 at a concrete one-record extraction. -/
theorem c8_witness :
    get_all_records_for_date c8fetch "2024-05-01" 5000 ≠ [] ∧
    ∃ df dff,
      (process_extraction c8fetch "2024-05-01" 5000 ["75"] none
        (initial_job "2024-05-01" ["75"])).status = .completed ∧
      (process_extraction c8fetch "2024-05-01" 5000 ["75"] none
        (initial_job "2024-05-01" ["75"])).full_df = some df ∧
      (process_extraction c8fetch "2024-05-01" 5000 ["75"] none
        (initial_job "2024-05-01" ["75"])).filtered_df = some dff ∧
      (process_extraction c8fetch "2024-05-01" 5000 ["75"] none
        (initial_job "2024-05-01" ["75"])).filtered_records = dff.rows.length ∧
      (process_extraction c8fetch "2024-05-01" 5000 ["75"] none
        (initial_job "2024-05-01" ["75"])).total_records = df.rows.length ∧
      (process_extraction c8fetch "2024-05-01" 5000 ["75"] none
        (initial_job "2024-05-01" ["75"])).filtered_records ≤
        (process_extraction c8fetch "2024-05-01" 5000 ["75"] none
          (initial_job "2024-05-01" ["75"])).total_records ∧
      (dff.rows.map List.dropLast).Sublist df.rows := by
  have hne : get_all_records_for_date c8fetch "2024-05-01" 5000 ≠ [] := by
    rw [show get_all_records_for_date c8fetch "2024-05-01" 5000 = [c8rec] from rfl]
    exact List.cons_ne_nil _ _
  exact ⟨hne, c8_filtered_rows_correspond c8fetch "2024-05-01" 5000 ["75"]
    (initial_job "2024-05-01" ["75"]) hne⟩

/-- A code returned by the matcher's inner loop belongs to the target set. -/
theorem first_match_mem : ∀ (deps targets : List String) (d : String),
    first_match deps targets = some d → d ∈ targets := by
  intro deps
  induction deps with
  | nil => intro targets d h; cases h
  | cons a rest ih =>
    intro targets d h
    by_cases ha : a ∈ targets
    · simp only [first_match, if_pos ha, Option.some.injEq] at h
      exact h ▸ ha
    · simp only [first_match, if_neg ha] at h
      exact ih targets d h

/-- A matched code recorded for a row belongs to the target set. -/
theorem rowDept_mem (targets : List String) (r : Row) (d : String)
    (h : rowDept targets r = .ok (some d)) : d ∈ targets := by
  unfold rowDept at h
  split at h
  · cases h
  · split at h
    · cases h
    · cases h
    · split at h
      · cases h
      · injection h with h
        exact first_match_mem _ _ _ h

/-- Every value of the filtered `code_departement_trouve` column belongs to
the target set. -/
theorem matched_tags_mem (targets : List String) :
    ∀ (rows : List Row) (d : String), d ∈ matched_tags targets rows → d ∈ targets := by
  intro rows
  induction rows with
  | nil => intro d h; cases h
  | cons r rs ih =>
    intro d h
    simp only [matched_tags] at h
    cases hr : rowDept targets r with
    | error e => rw [hr] at h; exact ih d h
    | ok o =>
      rw [hr] at h
      cases o with
      | some d2 =>
        rcases List.mem_cons.mp h with rfl | h2
        · exact rowDept_mem targets r d hr
        · exact ih d h2
      | none => exact ih d h

/-- Membership is preserved by `dedupFirst`. -/
theorem mem_dedupFirst : ∀ (l : List String) (y : String), y ∈ dedupFirst l ↔ y ∈ l := by
  intro l
  induction l with
  | nil => intro y; simp [dedupFirst]
  | cons x xs ih =>
    intro y
    simp only [dedupFirst, List.mem_cons, List.mem_filter]
    constructor
    · rintro (rfl | ⟨hy, _⟩)
      · exact Or.inl rfl
      · exact Or.inr ((ih y).mp hy)
    · rintro (rfl | hy)
      · exact Or.inl rfl
      · by_cases hxy : y = x
        · exact Or.inl hxy
        · exact Or.inr ⟨(ih y).mpr hy, by simpa using hxy⟩

/-- Deduplication yields a duplicate-free list. -/
theorem nodup_dedupFirst : ∀ l : List String, (dedupFirst l).Nodup := by
  intro l
  induction l with
  | nil => simp [dedupFirst]
  | cons x xs ih =>
    simp only [dedupFirst, List.nodup_cons]
    refine ⟨?_, ih.filter _⟩
    intro hx
    have := (List.mem_filter.mp hx).2
    simp at this

/-- Splitting a sum over a duplicate-free list at one of its members. -/
theorem sum_split_at_mem (g : String → Nat) (x : String) :
    ∀ L : List String, L.Nodup → x ∈ L →
      (L.map g).sum = g x + ((L.filter (fun y => !(y == x))).map g).sum := by
  intro L
  induction L with
  | nil => intro _ hx; cases hx
  | cons a as ih =>
    intro hnd hx
    rcases List.mem_cons.mp hx with rfl | hx'
    · have hnotin : x ∉ as := (List.nodup_cons.mp hnd).1
      have hfilter : as.filter (fun y => !(y == x)) = as := by
        rw [List.filter_eq_self]
        intro y hy
        simp only [Bool.not_eq_true', beq_eq_false_iff_ne]
        rintro rfl
        exact hnotin hy
      simp [hfilter]
    · have hax : ¬(a = x) := by
        rintro rfl
        exact (List.nodup_cons.mp hnd).1 hx'
      have hrec := ih (List.nodup_cons.mp hnd).2 hx'
      have hfc : (a :: as).filter (fun y => !(y == x)) = a :: as.filter (fun y => !(y == x)) := by
        rw [List.filter_cons_of_pos]
        simpa using hax
      rw [hfc]
      simp only [List.map_cons, List.sum_cons, hrec]
      omega

/-- The counts recorded by `value_counts` add up to the length of the list. -/
theorem sum_value_counts : ∀ l : List String, ((value_counts l).map Prod.snd).sum = l.length := by
  intro l
  induction l with
  | nil => rfl
  | cons x xs ih =>
    have hmm : ∀ m : List String, ((value_counts m).map Prod.snd).sum =
        ((dedupFirst m).map (fun s => m.count s)).sum := by
      intro m
      simp only [value_counts, List.map_map]
      rfl
    rw [hmm] at ih ⊢
    simp only [dedupFirst, List.map_cons, List.sum_cons, List.count_cons_self]
    have hcongr : ((dedupFirst xs).filter (fun y => !(y == x))).map (fun s => (x :: xs).count s) =
        ((dedupFirst xs).filter (fun y => !(y == x))).map (fun s => xs.count s) := by
      apply List.map_congr_left
      intro y hy
      have hyx : ¬(y = x) := by
        have := (List.mem_filter.mp hy).2
        simpa using this
      exact List.count_cons_of_ne hyx _
    rw [hcongr]
    by_cases hx : x ∈ xs
    · have hsplit := sum_split_at_mem (fun s => xs.count s) x (dedupFirst xs)
        (nodup_dedupFirst xs) ((mem_dedupFirst xs x).mpr hx)
      have hb : (fun s => xs.count s) x = xs.count x := rfl
      rw [hb] at hsplit
      simp only [List.length_cons]
      omega
    · have hzero : xs.count x = 0 := List.count_eq_zero_of_not_mem hx
      have hfilter : (dedupFirst xs).filter (fun y => !(y == x)) = dedupFirst xs := by
        rw [List.filter_eq_self]
        intro y hy
        simp only [Bool.not_eq_true', beq_eq_false_iff_ne]
        rintro rfl
        exact hx ((mem_dedupFirst xs y).mp hy)
      rw [hfilter]
      simp only [List.length_cons]
      omega

/-- The filter keeps exactly one row per recorded matched code. -/
theorem filterRows_length_eq_tags (targets : List String) :
    ∀ rows rows2 : List Row, filterRows targets rows = .ok rows2 →
      rows2.length = (matched_tags targets rows).length := by
  intro rows
  induction rows with
  | nil =>
    intro rows2 h
    cases h
    rfl
  | cons r rs ih =>
    intro rows2 h
    simp only [filterRows] at h
    simp only [matched_tags]
    cases hr : rowDept targets r with
    | error e => rw [hr] at h; cases h
    | ok o =>
      rw [hr] at h
      cases o with
      | none => exact ih rows2 h
      | some d =>
        cases hrest : filterRows targets rs with
        | error e => rw [hrest] at h; cases h
        | ok rest =>
          rw [hrest] at h
          cases h
          simp [ih rest hrest]

/-- C10: on a fault-free completed job with a nonzero fetch, every key of
`department_distribution` is one of the requested departments, every count is
at least 1, the counts sum to `filtered_records`, and a filtered dataset with
zero rows leaves the distribution empty. -/
theorem c10_distribution_invariants (f : Nat → Except Unit (List Rec)) (target : String)
    (m : Nat) (deps : List String) (j : JobState)
    (hne : get_all_records_for_date f target m ≠ []) :
    (∀ p ∈ (process_extraction f target m deps none j).department_distribution,
        p.1 ∈ deps ∧ 1 ≤ p.2) ∧
    ((process_extraction f target m deps none j).department_distribution.map Prod.snd).sum =
      (process_extraction f target m deps none j).filtered_records ∧
    (∀ dff, (process_extraction f target m deps none j).filtered_df = some dff →
      dff.rows = [] → (process_extraction f target m deps none j).department_distribution = []) := by
  cases hga : get_all_records_for_date f target m with
  | nil => exact absurd hga hne
  | cons r rs =>
    obtain ⟨rows, hrows, hflt⟩ := filter_by_departments_clean deps (r :: rs) target
    rw [process_extraction_cons f target m deps j r rs _ hga hflt]
    dsimp only
    by_cases hpos : 0 < rows.length
    · rw [if_pos hpos]
      refine ⟨?_, ?_, ?_⟩
      · intro p hp
        simp only [value_counts, List.mem_map] at hp
        obtain ⟨s, hs, rfl⟩ := hp
        have hmem : s ∈ matched_tags deps (create_excel_simple (r :: rs) target).rows :=
          (mem_dedupFirst _ s).mp hs
        exact ⟨matched_tags_mem deps _ s hmem, List.count_pos_iff.mpr hmem⟩
      · rw [sum_value_counts]
        exact (filterRows_length_eq_tags deps ((r :: rs).map clean_record) rows hrows).symm
      · intro dff hdff hrows0
        injection hdff with hdff
        subst hdff
        have hnil : rows = [] := hrows0
        rw [hnil] at hpos
        cases hpos
    · rw [if_neg hpos]
      refine ⟨fun p hp => absurd hp (List.not_mem_nil p), ?_, fun dff hdff hrows0 => rfl⟩
      simp only [List.map_nil, List.sum_nil]
      omega

/-- Witness for C10 at the concrete one-match extraction of the C8 source. -/
theorem c10_witness :
    get_all_records_for_date c8fetch "2024-05-01" 5000 ≠ [] ∧
    (∀ p ∈ (process_extraction c8fetch "2024-05-01" 5000 ["75", "92"] none
        (initial_job "2024-05-01" ["75", "92"])).department_distribution,
        p.1 ∈ ["75", "92"] ∧ 1 ≤ p.2) ∧
    ((process_extraction c8fetch "2024-05-01" 5000 ["75", "92"] none
        (initial_job "2024-05-01" ["75", "92"])).department_distribution.map Prod.snd).sum =
      (process_extraction c8fetch "2024-05-01" 5000 ["75", "92"] none
        (initial_job "2024-05-01" ["75", "92"])).filtered_records ∧
    (∀ dff, (process_extraction c8fetch "2024-05-01" 5000 ["75", "92"] none
        (initial_job "2024-05-01" ["75", "92"])).filtered_df = some dff →
      dff.rows = [] → (process_extraction c8fetch "2024-05-01" 5000 ["75", "92"] none
        (initial_job "2024-05-01" ["75", "92"])).department_distribution = []) := by
  have hne : get_all_records_for_date c8fetch "2024-05-01" 5000 ≠ [] := by
    rw [show get_all_records_for_date c8fetch "2024-05-01" 5000 = [c8rec] from rfl]
    exact List.cons_ne_nil _ _
  exact ⟨hne, c10_distribution_invariants c8fetch "2024-05-01" 5000 ["75", "92"]
    (initial_job "2024-05-01" ["75", "92"]) hne⟩

/-- Splitting a comma-free character list is the identity (one piece). -/
theorem splitComma_of_no_comma : ∀ l : List Char, ',' ∉ l → splitComma l = [l] := by
  intro l
  induction l with
  | nil => intro _; rfl
  | cons c cs ih =>
    intro h
    have hc : ¬(c == ',') = true := by
      simp only [beq_iff_eq]
      rintro rfl
      exact h (List.mem_cons_self _ _)
    have hcs : ',' ∉ cs := fun hm => h (List.mem_cons_of_mem c hm)
    simp only [splitComma, if_neg hc, ih hcs]

/-- Splitting at the first comma after a comma-free prefix. -/
theorem splitComma_append : ∀ (l r : List Char), ',' ∉ l →
    splitComma (l ++ ',' :: r) = l :: splitComma r := by
  intro l
  induction l with
  | nil =>
    intro r _
    simp [splitComma]
  | cons c cs ih =>
    intro r h
    have hc : ¬(c == ',') = true := by
      simp only [beq_iff_eq]
      rintro rfl
      exact h (List.mem_cons_self _ _)
    have hcs : ',' ∉ cs := fun hm => h (List.mem_cons_of_mem c hm)
    simp only [List.cons_append, splitComma, if_neg hc, List.append_eq]
    rw [ih r hcs]

/-- Splitting inverts `joinComma` on nonempty lists of comma-free pieces. -/
theorem splitComma_joinComma : ∀ ls : List (List Char), ls ≠ [] →
    (∀ l ∈ ls, ',' ∉ l) → splitComma (joinComma ls) = ls := by
  intro ls
  induction ls with
  | nil => intro h _; exact absurd rfl h
  | cons l rest ih =>
    intro _ hall
    cases rest with
    | nil => exact splitComma_of_no_comma l (hall l (List.mem_cons_self _ _))
    | cons l₂ rest₂ =>
      show splitComma (l ++ ',' :: joinComma (l₂ :: rest₂)) = l :: l₂ :: rest₂
      rw [splitComma_append l _ (hall l (List.mem_cons_self _ _))]
      rw [ih (List.cons_ne_nil _ _) (fun u hu => hall u (List.mem_cons_of_mem l hu))]

/-- Dropping while a predicate holds is the identity when no element satisfies it. -/
theorem dropWhile_eq_self_of_none (p : Char → Bool) :
    ∀ l : List Char, (∀ c ∈ l, p c = false) → l.dropWhile p = l := by
  intro l h
  cases l with
  | nil => rfl
  | cons c cs =>
    rw [List.dropWhile_cons_of_neg]
    simp [h c (List.mem_cons_self _ _)]

/-- Two-sided stripping is the identity when no character qualifies. -/
theorem pyStrip_eq_self (p : Char → Bool) (l : List Char)
    (h : ∀ c ∈ l, p c = false) : pyStrip p l = l := by
  unfold pyStrip
  rw [dropWhile_eq_self_of_none p l h,
    dropWhile_eq_self_of_none p l.reverse (fun c hc => h c (List.mem_reverse.mp hc)),
    List.reverse_reverse]

/-- Removing a character that does not occur is the identity. -/
theorem removeChar_eq_self (c : Char) (l : List Char) (h : c ∉ l) :
    removeChar c l = l := by
  unfold removeChar
  rw [List.filter_eq_self]
  intro x hx
  simp only [Bool.not_eq_true', beq_eq_false_iff_ne]
  rintro rfl
  exact h hx

/-- Characters of a comma-join are either the comma or characters of a piece. -/
theorem mem_joinComma : ∀ (ls : List (List Char)) (c : Char), c ∈ joinComma ls →
    c = ',' ∨ ∃ l ∈ ls, c ∈ l := by
  intro ls
  induction ls with
  | nil => intro c h; cases h
  | cons l rest ih =>
    intro c h
    cases rest with
    | nil => exact Or.inr ⟨l, List.mem_cons_self _ _, h⟩
    | cons l₂ rest₂ =>
      rw [show joinComma (l :: l₂ :: rest₂) = l ++ ',' :: joinComma (l₂ :: rest₂) from rfl] at h
      rcases List.mem_append.mp h with hl | hr
      · exact Or.inr ⟨l, List.mem_cons_self _ _, hl⟩
      · rcases List.mem_cons.mp hr with rfl | hj
        · exact Or.inl rfl
        · rcases ih c hj with h1 | ⟨u, hu, hcu⟩
          · exact Or.inl h1
          · exact Or.inr ⟨u, List.mem_cons_of_mem l hu, hcu⟩

/-- Removal of a character commutes with `joinComma` when the removed character is not
the comma. -/
theorem removeChar_joinComma (c : Char) (hc : ¬(c = ',')) :
    ∀ ls : List (List Char), removeChar c (joinComma ls) = joinComma (ls.map (removeChar c)) := by
  intro ls
  induction ls with
  | nil => rfl
  | cons l rest ih =>
    cases rest with
    | nil => rfl
    | cons l₂ rest₂ =>
      show removeChar c (l ++ ',' :: joinComma (l₂ :: rest₂)) =
        joinComma (removeChar c l :: (l₂ :: rest₂).map (removeChar c))
      rw [show (removeChar c (l ++ ',' :: joinComma (l₂ :: rest₂)) : List Char) =
        removeChar c l ++ removeChar c (',' :: joinComma (l₂ :: rest₂)) from
          List.filter_append _ _]
      have hcomma : removeChar c (',' :: joinComma (l₂ :: rest₂)) =
          ',' :: removeChar c (joinComma (l₂ :: rest₂)) := by
        unfold removeChar
        rw [List.filter_cons_of_pos]
        simp only [Bool.not_eq_true', beq_eq_false_iff_ne]
        exact fun h => hc h.symm
      rw [hcomma, ih]
      rfl

/-- A well-formed department-code character: not a comma, quote, apostrophe,
bracket, or whitespace — the characters that the string-shape decoding of
`filter_by_departments` treats specially. -/
def goodTokChar (c : Char) : Bool :=
  !(c == ',') && !(c == quoteChar) && !(c == aposChar) && !isBracket c && !isPyWS c

/-- A well-formed department-code token: nonempty and made of well-formed
characters (e.g. `"75"`, `"2A"`). -/
def goodToken (t : String) : Bool := !t.data.isEmpty && t.data.all goodTokChar

/-- The list shape of a department-code token sequence (claim C2),
e.g. `["75","92"]`. -/
def listShape (toks : List String) : Cell := .clist toks

/-- The bracketed-quoted string shape of a token sequence (claim C2),
e.g. the text `["75","92"]` with quotes around each token. -/
def bracketShape (toks : List String) : Cell :=
  .cstr (String.mk ('[' :: (joinComma ((toks.map String.data).map
    (fun u => quoteChar :: (u ++ [quoteChar]))) ++ [']'])))

/-- The bare comma-separated string shape of a token sequence (claim C2),
e.g. the text `75,92`. -/
def bareShape (toks : List String) : Cell :=
  .cstr (String.mk (joinComma (toks.map String.data)))

/-- Unpacking of `goodTokChar`. -/
theorem goodTokChar_spec (c : Char) (h : goodTokChar c = true) :
    ¬(c = ',') ∧ ¬(c = quoteChar) ∧ ¬(c = aposChar) ∧ isBracket c = false ∧ isPyWS c = false := by
  simp only [goodTokChar, Bool.and_eq_true, Bool.not_eq_true', beq_eq_false_iff_ne] at h
  exact ⟨h.1.1.1.1, h.1.1.1.2, h.1.1.2, h.1.2, h.2⟩

/-- A join of quote-wrapped pieces starts and ends with a quote. -/
theorem joinComma_quoted_shape : ∀ (t : List Char) (ts : List (List Char)),
    ∃ mid, joinComma ((t :: ts).map (fun u => quoteChar :: (u ++ [quoteChar]))) =
      quoteChar :: (mid ++ [quoteChar]) := by
  intro t ts
  induction ts generalizing t with
  | nil => exact ⟨t, rfl⟩
  | cons t₂ ts₂ ih =>
    obtain ⟨mid', hmid⟩ := ih t₂
    refine ⟨(t ++ [quoteChar]) ++ ',' :: quoteChar :: mid', ?_⟩
    show (quoteChar :: (t ++ [quoteChar])) ++
      ',' :: joinComma ((t₂ :: ts₂).map (fun u => quoteChar :: (u ++ [quoteChar]))) = _
    rw [hmid]
    simp [List.append_assoc]

/-- Stripping `p`-characters from a list enclosed in one `p`-character on each
side, whose inner part starts and ends with non-`p` characters, yields the
inner part. -/
theorem pyStrip_wrap (p : Char → Bool) (a b x y : Char) (mid : List Char)
    (hpa : p a = true) (hpb : p b = true) (hx : p x = false) (hy : p y = false) :
    pyStrip p (a :: ((x :: (mid ++ [y])) ++ [b])) = x :: (mid ++ [y]) := by
  unfold pyStrip
  rw [List.dropWhile_cons_of_pos hpa, List.cons_append, List.dropWhile_cons_of_neg (by simp [hx])]
  rw [show (x :: ((mid ++ [y]) ++ [b])).reverse = b :: (y :: (mid.reverse ++ [x])) by simp]
  rw [List.dropWhile_cons_of_pos hpb, List.dropWhile_cons_of_neg (by simp [hy])]
  simp

/-- Deleting the quote characters of one quote-wrapped quote-free piece
recovers the piece. -/
theorem removeChar_quote_wrap (u : List Char) (hu : quoteChar ∉ u) :
    removeChar quoteChar (quoteChar :: (u ++ [quoteChar])) = u := by
  unfold removeChar
  rw [List.filter_cons_of_neg (by simp)]
  rw [List.filter_append]
  rw [show List.filter (fun x => !(x == quoteChar)) [quoteChar] = [] by simp]
  rw [List.append_nil]
  rw [List.filter_eq_self.mpr]
  intro x hx
  simp only [Bool.not_eq_true', beq_eq_false_iff_ne]
  rintro rfl
  exact hu hx

/-- Shared tail of the two string-shape computations: comma-splitting,
whitespace-trimming and empty-dropping over a join of well-formed tokens
recovers the tokens. -/
theorem splitTrim_joinComma (t : List Char) (ts : List (List Char))
    (h : ∀ u ∈ t :: ts, u ≠ [] ∧ ∀ c ∈ u, goodTokChar c = true) :
    ((splitComma (joinComma (t :: ts))).map pyStripWS).filter (fun u => !u.isEmpty) =
      t :: ts := by
  rw [splitComma_joinComma (t :: ts) (List.cons_ne_nil _ _)]
  · have hmap : List.map pyStripWS (t :: ts) = List.map id (t :: ts) :=
      List.map_congr_left (fun u hu => pyStrip_eq_self isPyWS u
        (fun c hc => ((goodTokChar_spec c ((h u hu).2 c hc)).2.2.2.2)))
    rw [hmap, List.map_id]
    rw [List.filter_eq_self.mpr]
    intro u hu
    have := (h u hu).1
    cases u with
    | nil => exact absurd rfl this
    | cons c cs => rfl
  · intro u hu hcomma
    exact (goodTokChar_spec ',' ((h u hu).2 ',' hcomma)).1 rfl

/-- Decoding the bracketed-quoted serialization of well-formed tokens
recovers the tokens. -/
theorem cleanSplit_bracket (cds : List (List Char))
    (h : ∀ u ∈ cds, u ≠ [] ∧ ∀ c ∈ u, goodTokChar c = true) :
    cleanSplit ('[' :: (joinComma (cds.map (fun u => quoteChar :: (u ++ [quoteChar]))) ++ [']'])) =
      cds := by
  cases cds with
  | nil => decide
  | cons t ts =>
    obtain ⟨mid, hmid⟩ := joinComma_quoted_shape t ts
    unfold cleanSplit
    rw [show pyStripBrackets ('[' :: (joinComma ((t :: ts).map
        (fun u => quoteChar :: (u ++ [quoteChar]))) ++ [']'])) =
        joinComma ((t :: ts).map (fun u => quoteChar :: (u ++ [quoteChar]))) by
      rw [hmid]
      exact pyStrip_wrap isBracket '[' ']' quoteChar quoteChar mid
        (by decide) (by decide) (by decide) (by decide)]
    rw [removeChar_joinComma quoteChar (by decide)]
    rw [List.map_map]
    have hmap : List.map (removeChar quoteChar ∘ fun u => quoteChar :: (u ++ [quoteChar]))
        (t :: ts) = List.map id (t :: ts) :=
      List.map_congr_left (fun u hu => removeChar_quote_wrap u
        (fun hq => (goodTokChar_spec quoteChar ((h u hu).2 quoteChar hq)).2.1 rfl))
    rw [hmap, List.map_id]
    rw [removeChar_eq_self aposChar _ (fun hmem => by
      rcases mem_joinComma _ _ hmem with h1 | ⟨u, hu, hcu⟩
      · exact absurd h1 (by decide)
      · exact (goodTokChar_spec aposChar ((h u hu).2 aposChar hcu)).2.2.1 rfl)]
    exact splitTrim_joinComma t ts h

/-- Decoding the bare comma-separated serialization of well-formed tokens
recovers the tokens. -/
theorem cleanSplit_bare (cds : List (List Char))
    (h : ∀ u ∈ cds, u ≠ [] ∧ ∀ c ∈ u, goodTokChar c = true) :
    cleanSplit (joinComma cds) = cds := by
  cases cds with
  | nil => decide
  | cons t ts =>
    unfold cleanSplit
    have hchars : ∀ c ∈ joinComma (t :: ts), c = ',' ∨ goodTokChar c = true := by
      intro c hmem
      rcases mem_joinComma _ _ hmem with h1 | ⟨u, hu, hcu⟩
      · exact Or.inl h1
      · exact Or.inr ((h u hu).2 c hcu)
    rw [show pyStripBrackets (joinComma (t :: ts)) = joinComma (t :: ts) from
      pyStrip_eq_self isBracket _ (fun c hc => by
        rcases hchars c hc with rfl | hg
        · decide
        · exact (goodTokChar_spec c hg).2.2.2.1)]
    rw [removeChar_eq_self quoteChar _ (fun hmem => by
      rcases hchars quoteChar hmem with h1 | hg
      · exact absurd h1 (by decide)
      · exact (goodTokChar_spec quoteChar hg).2.1 rfl)]
    rw [removeChar_eq_self aposChar _ (fun hmem => by
      rcases hchars aposChar hmem with h1 | hg
      · exact absurd h1 (by decide)
      · exact (goodTokChar_spec aposChar hg).2.2.1 rfl)]
    exact splitTrim_joinComma t ts h

/-- C2 (amended): department-code decoding is shape-independent for
well-formed token sequences — tokens that are nonempty and free of commas,
quotes, apostrophes, brackets, and whitespace. For such a sequence the list
shape, the bracketed-quoted string shape, and the bare comma-separated string
shape all decode to exactly the token sequence. (Without the restriction the
three shapes can disagree: the list shape is used verbatim while the string
shapes are split on commas and trimmed.) -/
theorem c2_amended_shape_independent (toks : List String)
    (h : ∀ t ∈ toks, goodToken t = true) :
    decode_dep (listShape toks) = toks ∧
    decode_dep (bracketShape toks) = toks ∧
    decode_dep (bareShape toks) = toks := by
  have hmk : ∀ t : String, String.mk t.data = t := fun t => by cases t; rfl
  have hcds : ∀ u ∈ toks.map String.data, u ≠ [] ∧ ∀ c ∈ u, goodTokChar c = true := by
    intro u hu
    obtain ⟨t, ht, rfl⟩ := List.mem_map.mp hu
    have hg := h t ht
    simp only [goodToken, Bool.and_eq_true, Bool.not_eq_true'] at hg
    constructor
    · intro hnil
      rw [hnil] at hg
      simp at hg
    · intro c hc
      exact (List.all_eq_true.mp hg.2) c hc
  have hend : List.map ((fun l => String.mk l) ∘ String.data) toks = List.map id toks :=
    List.map_congr_left (fun t _ => hmk t)
  refine ⟨rfl, ?_, ?_⟩
  · show ((cleanSplit ('[' :: (joinComma ((toks.map String.data).map
      (fun u => quoteChar :: (u ++ [quoteChar]))) ++ [']']))).map (fun l => String.mk l)) = toks
    rw [cleanSplit_bracket (toks.map String.data) hcds]
    rw [List.map_map, hend, List.map_id]
  · show ((cleanSplit (joinComma (toks.map String.data))).map (fun l => String.mk l)) = toks
    rw [cleanSplit_bare (toks.map String.data) hcds]
    rw [List.map_map, hend, List.map_id]

/-- Counterexample to C2 as stated: for the one-token sequence `[" 75"]` the
list shape decodes verbatim to `[" 75"]`, while both string shapes trim the
token's whitespace and decode to `["75"]` — the three shapes do not agree for
every token sequence. -/
theorem c2_counterexample :
    decode_dep (listShape [" 75"]) ≠ decode_dep (bracketShape [" 75"]) ∧
    decode_dep (listShape [" 75"]) ≠ decode_dep (bareShape [" 75"]) := by
  constructor <;> decide

/-- Witness for C2 (amended) at the claim's example token sequence. -/
theorem c2_witness :
    (∀ t ∈ ["75", "92"], goodToken t = true) ∧
    (decode_dep (listShape ["75", "92"]) = ["75", "92"] ∧
     decode_dep (bracketShape ["75", "92"]) = ["75", "92"] ∧
     decode_dep (bareShape ["75", "92"]) = ["75", "92"]) := by
  have hg : ∀ t ∈ ["75", "92"], goodToken t = true := by decide
  exact ⟨hg, c2_amended_shape_independent ["75", "92"] hg⟩
